import Mathlib

/-!
Verification of the SOF Haswell audio-DSP driver core
(`sound/soc/sof/intel/hsw.c`): memory/block access, IPC reply handling,
D0 power bring-up polling, reset sequencing, the doorbell interrupt
dispatcher and firmware window discovery, shallowly embedded in Lean.

Machine integers (`u32`, `size_t`) are modelled as `Nat` with explicit
`% 2^w` / bitwise masking where the code relies on width; signed error
codes (`int`) as `Int`.  Device memory is a byte-addressed function
`Nat → Nat` whose values are bytes (`< 256`).
-/

/- ### Fixed constants from hsw.c -/

/-- `#define HSW_DSP_BAR 0` (hsw.c line 33). -/
def HSW_DSP_BAR : Nat := 0

/-- `#define HSW_PCI_BAR 1` (hsw.c line 34). -/
def HSW_PCI_BAR : Nat := 1

/-- `#define MBOX_OFFSET 0x7E000` (hsw.c line 47). -/
def MBOX_OFFSET : Nat := 0x7E000

/-- `#define HSW_PANIC_OFFSET(x) ((x) & 0xFFFF)` (hsw.c line 62). -/
def HSW_PANIC_OFFSET (x : Nat) : Nat := Nat.land x 0xFFFF

/- ### 4.1 Register & memory access layer: block write / read (C1)

`hsw_block_write` (hsw.c lines 79-98) copies `size / 4` full 32-bit
words with `__iowrite32_copy`, then, if `size % 4 ≠ 0`, assembles the
1-3 trailing bytes into one zero-padded little-endian 32-bit word and
writes it as a final whole-word unit.  `hsw_block_read` (lines 100-106)
is a plain byte copy (`memcpy_fromio`). -/

/-- Store one byte at address `a` of the byte-addressed device memory. -/
def writeByte (mem : Nat → Nat) (a v : Nat) : Nat → Nat :=
  fun x => if x = a then v else mem x

/-- A single 32-bit MMIO store at byte address `a`: the four
little-endian bytes of `w` land at `a, a+1, a+2, a+3`. -/
def writeWord32 (mem : Nat → Nat) (a w : Nat) : Nat → Nat :=
  writeByte (writeByte (writeByte (writeByte mem a (w % 256))
    (a + 1) (w / 256 % 256)) (a + 2) (w / 65536 % 256)) (a + 3) (w / 16777216 % 256)

/-- Little-endian packing of a byte list into a word, the value computed
by the trailing-byte loop `tmp |= src_byte[m*4+i] << (i*8)` for bytes
`< 256` (absent bytes contribute zero: the padding of the final word). -/
def word32OfBytes : List Nat → Nat
  | [] => 0
  | b :: bs => b + 256 * word32OfBytes bs

/-- `__iowrite32_copy(dest, src, m)`: copy `m` 32-bit words from the
byte list `src` to device memory starting at byte address `a`. -/
def iowrite32_copy : (Nat → Nat) → Nat → List Nat → Nat → (Nat → Nat)
  | mem, _, _, 0 => mem
  | mem, a, src, Nat.succ k =>
      iowrite32_copy (writeWord32 mem a (word32OfBytes (src.take 4)))
        (a + 4) (src.drop 4) k

/-- `hsw_block_write` (hsw.c lines 79-98): `m = size / 4` whole words by
`__iowrite32_copy`, then if `n = size % 4 ≠ 0` one final zero-padded
word holding the `n` trailing bytes, written at `dest + m * 4`. -/
def hsw_block_write (mem : Nat → Nat) (offset : Nat) (src : List Nat) : Nat → Nat :=
  let m := src.length / 4
  let n := src.length % 4
  let mem1 := iowrite32_copy mem offset src m
  if n = 0 then mem1
  else writeWord32 mem1 (offset + 4 * m) (word32OfBytes (src.drop (4 * m)))

/-- `hsw_block_read` (hsw.c lines 100-106): plain byte copy of `size`
bytes out of device memory at `offset` (`memcpy_fromio`). -/
def hsw_block_read (mem : Nat → Nat) (offset size : Nat) : List Nat :=
  (List.range size).map fun i => mem (offset + i)

lemma writeWord32_at (mem : Nat → Nat) (a w j : Nat) (hj : j < 4) :
    writeWord32 mem a w (a + j) = w / 2 ^ (8 * j) % 256 := by
  interval_cases j <;>
    simp [writeWord32, writeByte, Nat.add_right_cancel_iff]

lemma writeWord32_frame (mem : Nat → Nat) (a w x : Nat)
    (hx : x < a ∨ a + 4 ≤ x) : writeWord32 mem a w x = mem x := by
  unfold writeWord32 writeByte
  split_ifs with h1 h2 h3 h4 <;> first | rfl | omega

lemma word32OfBytes_byte (bs : List Nat) (h : ∀ b ∈ bs, b < 256) :
    ∀ j, j < bs.length → word32OfBytes bs / 2 ^ (8 * j) % 256 = bs.getD j 0 := by
  induction bs with
  | nil => intro j hj; simp at hj
  | cons b bs ih =>
    intro j hj
    cases j with
    | zero =>
      have hb : b < 256 := h b (by simp)
      simp only [word32OfBytes, Nat.mul_zero, pow_zero, Nat.div_one,
        List.getD_cons_zero]
      omega
    | succ j =>
      have hpow : 2 ^ (8 * (j + 1)) = 256 * 2 ^ (8 * j) := by
        rw [Nat.mul_add, Nat.mul_one, pow_add]
        ring
      simp only [word32OfBytes, hpow]
      rw [← Nat.div_div_eq_div_mul]
      have hb : b < 256 := h b (by simp)
      have hdiv : (b + 256 * word32OfBytes bs) / 256 = word32OfBytes bs := by omega
      rw [hdiv]
      have := ih (fun b hb => h b (List.mem_cons_of_mem _ hb)) j
        (by simpa using Nat.lt_of_succ_lt_succ hj)
      simpa [List.getD] using this

lemma iowrite32_frame : ∀ (m : Nat) (mem : Nat → Nat) (a : Nat) (src : List Nat)
    (x : Nat), x < a → iowrite32_copy mem a src m x = mem x := by
  intro m
  induction m with
  | zero => intro mem a src x _; rfl
  | succ k ih =>
    intro mem a src x hx
    show iowrite32_copy (writeWord32 mem a (word32OfBytes (src.take 4)))
      (a + 4) (src.drop 4) k x = mem x
    rw [ih _ _ _ _ (by omega)]
    exact writeWord32_frame _ _ _ _ (Or.inl hx)

lemma getD_take (l : List Nat) : ∀ (n i : Nat), i < n →
    (l.take n).getD i 0 = l.getD i 0 := by
  induction l with
  | nil => intro n i _; simp
  | cons a l ih =>
    intro n i hi
    cases n with
    | zero => omega
    | succ m =>
      cases i with
      | zero => simp
      | succ j =>
        rw [List.take_succ_cons, List.getD_cons_succ, List.getD_cons_succ]
        exact ih m j (by omega)

lemma getD_drop (l : List Nat) : ∀ (n i : Nat),
    (l.drop n).getD i 0 = l.getD (n + i) 0 := by
  induction l with
  | nil => intro n i; simp
  | cons a l ih =>
    intro n i
    cases n with
    | zero => simp
    | succ m =>
      show (l.drop m).getD i 0 = (a :: l).getD (m + 1 + i) 0
      have harith : m + 1 + i = (m + i) + 1 := by omega
      rw [harith, List.getD_cons_succ]
      exact ih m i

lemma iowrite32_at : ∀ (m : Nat) (mem : Nat → Nat) (a : Nat) (src : List Nat),
    (∀ b ∈ src, b < 256) → 4 * m ≤ src.length →
    ∀ i, i < 4 * m → iowrite32_copy mem a src m (a + i) = src.getD i 0 := by
  intro m
  induction m with
  | zero => intro mem a src _ _ i hi; omega
  | succ k ih =>
    intro mem a src hsrc hlen i hi
    show iowrite32_copy (writeWord32 mem a (word32OfBytes (src.take 4)))
      (a + 4) (src.drop 4) k (a + i) = src.getD i 0
    by_cases hi4 : i < 4
    · rw [iowrite32_frame _ _ _ _ _ (by omega)]
      rw [writeWord32_at _ _ _ _ hi4]
      have htake : (src.take 4).length = 4 := by
        rw [List.length_take]; omega
      rw [word32OfBytes_byte _ (fun b hb => hsrc b (List.take_subset _ _ hb)) i
        (by omega)]
      exact getD_take _ _ _ hi4
    · have hi' : a + i = (a + 4) + (i - 4) := by omega
      rw [hi']
      rw [ih _ _ _ (fun b hb => hsrc b (List.drop_subset _ _ hb))
        (by simp [List.length_drop]; omega) (i - 4) (by omega)]
      rw [getD_drop]
      congr 1
      omega

/-- C1: for every payload (any length, including `L mod 4 ∈ {1,2,3}`),
`hsw_block_write` followed by `hsw_block_read` of the same length at the
same offset reproduces the original bytes exactly. -/
theorem hsw_block_write_read_roundtrip (mem : Nat → Nat) (offset : Nat)
    (src : List Nat) (hsrc : ∀ b ∈ src, b < 256) :
    hsw_block_read (hsw_block_write mem offset src) offset src.length = src := by
  apply List.ext_getElem
  · simp [hsw_block_read]
  · intro i h1 h2
    have hi : i < src.length := h2
    have hread : (hsw_block_read (hsw_block_write mem offset src) offset
        src.length)[i] = hsw_block_write mem offset src (offset + i) := by
      simp [hsw_block_read]
    rw [hread, ← List.getD_eq_getElem src 0 hi]
    set L := src.length with hL
    have hml : 4 * (L / 4) ≤ L := by omega
    by_cases hn : L % 4 = 0
    · have hi4 : i < 4 * (L / 4) := by omega
      simp only [hsw_block_write, ← hL, hn, if_pos rfl]
      exact iowrite32_at _ _ _ _ hsrc hml i hi4
    · simp only [hsw_block_write, ← hL, if_neg hn]
      by_cases hi4 : i < 4 * (L / 4)
      · rw [writeWord32_frame _ _ _ _ (Or.inl (by omega))]
        exact iowrite32_at _ _ _ _ hsrc hml i hi4
      · have hsplit : offset + i = (offset + 4 * (L / 4)) + (i - 4 * (L / 4)) := by
          omega
        rw [hsplit, writeWord32_at _ _ _ _ (by omega)]
        have hdlen : (src.drop (4 * (L / 4))).length = L % 4 := by
          simp [List.length_drop]; omega
        rw [word32OfBytes_byte _ (fun b hb => hsrc b (List.drop_subset _ _ hb))
          (i - 4 * (L / 4)) (by omega)]
        rw [getD_drop]
        congr 1
        omega

/-- C1 witness: a concrete 7-byte payload (7 mod 4 = 3 trailing bytes)
round-trips through block write then block read. -/
theorem hsw_block_write_read_roundtrip_witness :
    hsw_block_read (hsw_block_write (fun _ => 0) 5 [1, 2, 3, 4, 250, 6, 7]) 5
      [1, 2, 3, 4, 250, 6, 7].length = [1, 2, 3, 4, 250, 6, 7] :=
  hsw_block_write_read_roundtrip (fun _ => 0) 5 [1, 2, 3, 4, 250, 6, 7]
    (by decide)

/- ### 4.3 Mailbox transport: hsw_get_reply (C2, C3, C10)

`hsw_get_reply` (hsw.c lines 547-575) reads a `struct sof_ipc_reply`
header from the host box, decides the consumable size and the return
value from the header's `error` and `size` fields, and then copies the
payload back only when `msg->msg_data` is non-null and the size is
positive. -/

/-- `-EINVAL` magnitude (`errno`: invalid argument). -/
def EINVAL : Int := 22

/-- Modelled from the spec: `sizeof(struct sof_ipc_reply)`; the IPC ABI
header defining `sof_ipc_reply` (`{hdr: {size, cmd}, error}`, three
32-bit fields) is not among the sources, only its use sites are. -/
def sof_ipc_reply_sizeof : Nat := 12

/-- The reply header read from the host box: `hdr.size` (u32 declared
reply size) and `error` (i32). -/
structure sof_ipc_reply where
  hdr_size : Nat
  error : Int
deriving DecidableEq

/-- The fields of `struct snd_sof_ipc_msg` that `hsw_get_reply` uses:
whether the send-payload pointer `msg_data` is null, whether the
reply buffer pointer `reply_data` is null, and the caller's expected
reply size. -/
structure snd_sof_ipc_msg where
  msg_data : Bool
  reply_data : Bool
  reply_size : Nat
deriving DecidableEq

/-- Outcome of `hsw_get_reply`: the returned error code, the computed
consumable size, and the payload read-back that was issued, if any,
as `(device offset, byte count)`. -/
structure GetReplyOut where
  ret : Int
  size : Nat
  readTo : Option (Nat × Nat)
deriving DecidableEq

/-- `hsw_get_reply` (hsw.c lines 547-575). -/
def hsw_get_reply (host_box_offset : Nat) (reply : sof_ipc_reply)
    (msg : snd_sof_ipc_msg) : GetReplyOut :=
  let sz_ret : Nat × Int :=
    if reply.error < 0 then (sof_ipc_reply_sizeof, reply.error)
    else if reply.hdr_size ≠ msg.reply_size then (msg.reply_size, -EINVAL)
    else (reply.hdr_size, 0)
  { ret := sz_ret.2, size := sz_ret.1,
    readTo :=
      if msg.msg_data = true ∧ 0 < sz_ret.1 then
        some (host_box_offset, sz_ret.1)
      else none }

/-- C2: with a non-negative error field and a header-declared size that
differs from the caller's expected reply size, `hsw_get_reply` returns
`-EINVAL` and any payload read-back it issues is of exactly the
caller's expected size, never the mismatched declared size. -/
theorem hsw_get_reply_size_mismatch (off : Nat) (reply : sof_ipc_reply)
    (msg : snd_sof_ipc_msg) (herr : 0 ≤ reply.error)
    (hsz : reply.hdr_size ≠ msg.reply_size) :
    (hsw_get_reply off reply msg).ret = -EINVAL ∧
    (hsw_get_reply off reply msg).size = msg.reply_size ∧
    ∀ p : Nat × Nat, (hsw_get_reply off reply msg).readTo = some p →
      p.2 = msg.reply_size ∧ p.2 ≠ reply.hdr_size := by
  have herr' : ¬ reply.error < 0 := not_lt.mpr herr
  refine ⟨?_, ?_, ?_⟩
  · simp [hsw_get_reply, herr', hsz]
  · simp [hsw_get_reply, herr', hsz]
  · intro p hp
    simp only [hsw_get_reply, if_neg herr', if_pos hsz] at hp
    split at hp
    · cases hp; exact ⟨rfl, Ne.symm hsz⟩
    · cases hp

/-- C2 witness: expected 8-byte reply, header declares 4 bytes, error 0:
return is `-EINVAL`, the computed size is 8, the read-back is 8 bytes. -/
theorem hsw_get_reply_size_mismatch_witness :
    (hsw_get_reply 0 ⟨4, 0⟩ ⟨true, true, 8⟩).ret = -EINVAL ∧
    (hsw_get_reply 0 ⟨4, 0⟩ ⟨true, true, 8⟩).size = 8 ∧
    ∀ p : Nat × Nat, (hsw_get_reply 0 ⟨4, 0⟩ ⟨true, true, 8⟩).readTo = some p →
      p.2 = 8 ∧ p.2 ≠ 4 :=
  hsw_get_reply_size_mismatch 0 ⟨4, 0⟩ ⟨true, true, 8⟩ (by decide) (by decide)

/-- C3: with a negative error field, `hsw_get_reply` returns that error
and takes the consumable size to be the full reply-header size. -/
theorem hsw_get_reply_negative_error (off : Nat) (reply : sof_ipc_reply)
    (msg : snd_sof_ipc_msg) (herr : reply.error < 0) :
    (hsw_get_reply off reply msg).ret = reply.error ∧
    (hsw_get_reply off reply msg).size = sof_ipc_reply_sizeof := by
  constructor <;> simp [hsw_get_reply, herr]

/-- C3 witness: error `-12` (`-ENOMEM`) is returned as-is and the size
becomes `sizeof(struct sof_ipc_reply) = 12`. -/
theorem hsw_get_reply_negative_error_witness :
    (hsw_get_reply 0 ⟨4, -12⟩ ⟨true, true, 8⟩).ret = -12 ∧
    (hsw_get_reply 0 ⟨4, -12⟩ ⟨true, true, 8⟩).size = sof_ipc_reply_sizeof :=
  hsw_get_reply_negative_error 0 ⟨4, -12⟩ ⟨true, true, 8⟩ (by decide)

/-- C10: the payload copy is guarded by the send-payload pointer
`msg_data`, not by `reply_data`: with `msg_data` null no read-back
happens even when the size is positive and `reply_data` is non-null,
and with `msg_data` non-null and a positive size the read-back starts
at the host box base offset (the same offset as the header) with the
computed size. -/
theorem hsw_get_reply_copy_guard (off : Nat) (reply : sof_ipc_reply)
    (msg : snd_sof_ipc_msg) :
    (msg.msg_data = false → (hsw_get_reply off reply msg).readTo = none) ∧
    (msg.msg_data = true → 0 < (hsw_get_reply off reply msg).size →
      (hsw_get_reply off reply msg).readTo =
        some (off, (hsw_get_reply off reply msg).size)) := by
  constructor
  · intro h
    simp [hsw_get_reply, h]
  · intro h hs
    simp only [hsw_get_reply] at hs ⊢
    rw [if_pos ⟨h, hs⟩]

/-- C10 witness: `msg_data` null, `reply_data` non-null, size positive:
no read-back is issued. -/
theorem hsw_get_reply_copy_guard_witness :
    (hsw_get_reply 3 ⟨8, 0⟩ ⟨false, true, 8⟩).readTo = none :=
  (hsw_get_reply_copy_guard 3 ⟨8, 0⟩ ⟨false, true, 8⟩).1 rfl

/- ### 4.2 Power/reset state controller (C4, C7, C9)

Register bit masks.  The SHIM / PCI-config bit definitions live in
`shim.h`, which is not among the sources; only `hsw.c`, their user, is.
The positions below are therefore modelled (distinct bits inside a
32-bit register); no claim depends on a particular position. -/

/-- `snd_sof_dsp_update_bits` semantics on a 32-bit register:
`new = (old & ~mask) | (value & mask)`. -/
def updateBits (old mask value : Nat) : Nat :=
  old &&& ((2 ^ 32 - 1) ^^^ mask) ||| value &&& mask

/-- Modelled from the spec: `SHIM_CSR_RST`, the CSR reset bit
(`shim.h` is missing from the sources). -/
def SHIM_CSR_RST : Nat := 2 ^ 1

/-- Modelled from the spec: `SHIM_CSR_STALL`, the CSR core-stall bit. -/
def SHIM_CSR_STALL : Nat := 2 ^ 10

/-- Modelled from the spec: `SHIM_CSR_S1IOCS` clock-select bit. -/
def SHIM_CSR_S1IOCS : Nat := 2 ^ 23

/-- Modelled from the spec: `SHIM_CSR_SBCS1` SSP1 base-clock bit. -/
def SHIM_CSR_SBCS1 : Nat := 2 ^ 25

/-- Modelled from the spec: `SHIM_CSR_LPCS` low-power-clock bit. -/
def SHIM_CSR_LPCS : Nat := 2 ^ 31

/-- Modelled from the spec: `SHIM_CSR_DCS_MASK` DSP clock-select field. -/
def SHIM_CSR_DCS_MASK : Nat := 7 * 2 ^ 4

/-- Modelled from the spec: `SHIM_CSR_DCS(4)`. -/
def SHIM_CSR_DCS4 : Nat := 4 * 2 ^ 4

/-- Modelled from the spec: `SHIM_CLKCTL_MASK`. -/
def SHIM_CLKCTL_MASK : Nat := 3 * 2 ^ 24

/-- Modelled from the spec: `SHIM_CLKCTL_DCPLCG` local clock-gating bit. -/
def SHIM_CLKCTL_DCPLCG : Nat := 2 ^ 18

/-- Modelled from the spec: `SHIM_CLKCTL_SCOE0` SSP0 clock-output bit. -/
def SHIM_CLKCTL_SCOE0 : Nat := 2 ^ 16

/-- Modelled from the spec: `SHIM_CSR2_SDFD_SSP1` DMA-finish quirk bit. -/
def SHIM_CSR2_SDFD_SSP1 : Nat := 2 ^ 1

/-- Modelled from the spec: `SHIM_HMDC_HDDA_E0_ALLCH`, engine-0
opportunistic-DMA bits for all channels. -/
def SHIM_HMDC_HDDA_E0_ALLCH : Nat := 0xF

/-- Modelled from the spec: `SHIM_HMDC_HDDA_E1_ALLCH`, engine-1
opportunistic-DMA bits for all channels. -/
def SHIM_HMDC_HDDA_E1_ALLCH : Nat := 0xF * 2 ^ 8

/-- Modelled from the spec: `SHIM_IMRX_DONE` interrupt-mask bit. -/
def SHIM_IMRX_DONE : Nat := 2 ^ 0

/-- Modelled from the spec: `SHIM_IMRX_BUSY` interrupt-mask bit. -/
def SHIM_IMRX_BUSY : Nat := 2 ^ 1

/-- Modelled from the spec: `SHIM_IMRD_DONE` DSP-side mask bit. -/
def SHIM_IMRD_DONE : Nat := 2 ^ 0

/-- Modelled from the spec: `SHIM_IMRD_BUSY` DSP-side mask bit. -/
def SHIM_IMRD_BUSY : Nat := 2 ^ 1

/-- Modelled from the spec: `SHIM_IMRD_SSP0` DSP-side mask bit. -/
def SHIM_IMRD_SSP0 : Nat := 2 ^ 16

/-- Modelled from the spec: `SHIM_IMRD_DMAC` DSP-side mask bit. -/
def SHIM_IMRD_DMAC : Nat := 2 ^ 21

/-- Modelled from the spec: `PCI_VDRTCL2_DCLCGE` clock-gating bit. -/
def PCI_VDRTCL2_DCLCGE : Nat := 2 ^ 1

/-- Modelled from the spec: `PCI_VDRTCL2_DTCGE` clock-gating bit. -/
def PCI_VDRTCL2_DTCGE : Nat := 2 ^ 10

/-- Modelled from the spec: `PCI_VDRTCL2_APLLSE_MASK` audio-PLL bit. -/
def PCI_VDRTCL2_APLLSE_MASK : Nat := 2 ^ 31

/-- Modelled from the spec: `PCI_VDRTCL0_D3PGD` D3 power-gating disable. -/
def PCI_VDRTCL0_D3PGD : Nat := 2 ^ 11

/-- Modelled from the spec: `PCI_VDRTCL0_DSRAMPGE_MASK` data-SRAM
power-gating field. -/
def PCI_VDRTCL0_DSRAMPGE_MASK : Nat := 0xFFF * 2 ^ 12

/-- Modelled from the spec: `PCI_VDRTCL0_ISRAMPGE_MASK` instruction-SRAM
power-gating field. -/
def PCI_VDRTCL0_ISRAMPGE_MASK : Nat := 0x3FF * 2 ^ 2

/-- `PCI_PMCS_PS_MASK = 0x3`: the PCI power-state field. -/
def PCI_PMCS_PS_MASK : Nat := 3

/-- `-ENODEV` magnitude (`errno`: no such device). -/
def ENODEV : Int := 19

/-- Register names touched by the power/reset controller and the IPC
doorbell path. `reg80` and `regE0` are the two undocumented scratch
registers written as raw offsets `0x80` and `0xe0` in `hsw_set_dsp_D0`. -/
inductive Reg where
  | csr | csr2 | clkctl | hmdc | imrx | imrd | ipcx | ipcd | isrx
  | reg80 | regE0 | vdrtctl0 | vdrtctl2 | pmcs
deriving DecidableEq

/-- One hardware-visible step of the power/reset controller: a
read-modify-write (`snd_sof_dsp_update_bits*`), a plain 32-bit write
(`snd_sof_dsp_write`), a blocking delay, or a poll read of `PMCS`. -/
inductive HwEvent where
  | updBits (bar : Nat) (reg : Reg) (mask value : Nat)
  | wr (bar : Nat) (reg : Reg) (value : Nat)
  | delayMs (ms : Nat)
  | delayUs (lo hi : Nat)
  | readPMCS (attempt : Nat)
deriving DecidableEq

lemma updateBits_testBit (old mask value : Nat) (i : Nat) (hi : i < 32) :
    (updateBits old mask value).testBit i =
      (mask.testBit i && value.testBit i || !mask.testBit i && old.testBit i) := by
  unfold updateBits
  rw [Nat.testBit_lor, Nat.testBit_land, Nat.testBit_land, Nat.testBit_xor,
    Nat.testBit_two_pow_sub_one]
  rw [decide_eq_true hi]
  cases mask.testBit i <;> cases old.testBit i <;> cases value.testBit i <;> rfl

/-- `hsw_reset` (hsw.c lines 171-187) at register level: assert
RST|STALL into CSR, (10ms hold), then write back STALL only under the
same mask.  Returns `(return value, final CSR)`. -/
def hsw_reset (csr : Nat) : Int × Nat :=
  let csr1 := updateBits csr (Nat.lor SHIM_CSR_RST SHIM_CSR_STALL)
    (Nat.lor SHIM_CSR_RST SHIM_CSR_STALL)
  let csr2 := updateBits csr1 (Nat.lor SHIM_CSR_RST SHIM_CSR_STALL) SHIM_CSR_STALL
  (0, csr2)

/-- The event trace of `hsw_reset`: both bits asserted, a blocking 10ms
hold, then reset cleared with stall kept. -/
def hsw_reset_events : List HwEvent :=
  [HwEvent.updBits HSW_DSP_BAR Reg.csr (Nat.lor SHIM_CSR_RST SHIM_CSR_STALL)
     (Nat.lor SHIM_CSR_RST SHIM_CSR_STALL),
   HwEvent.delayMs 10,
   HwEvent.updBits HSW_DSP_BAR Reg.csr (Nat.lor SHIM_CSR_RST SHIM_CSR_STALL)
     SHIM_CSR_STALL]

/-- C7: from every prior CSR state, `hsw_reset` first asserts reset and
stall together, then (after the 10ms hold recorded in its trace) clears
reset while keeping stall, leaving the core reset-released and
stall-asserted, and always returns success (0). -/
theorem hsw_reset_releases_reset_keeps_stall (csr0 : Nat) :
    (hsw_reset csr0).1 = 0 ∧
    (updateBits csr0 (Nat.lor SHIM_CSR_RST SHIM_CSR_STALL)
        (Nat.lor SHIM_CSR_RST SHIM_CSR_STALL)).testBit 1 = true ∧
    (updateBits csr0 (Nat.lor SHIM_CSR_RST SHIM_CSR_STALL)
        (Nat.lor SHIM_CSR_RST SHIM_CSR_STALL)).testBit 10 = true ∧
    (hsw_reset csr0).2.testBit 1 = false ∧
    (hsw_reset csr0).2.testBit 10 = true ∧
    hsw_reset_events =
      [HwEvent.updBits HSW_DSP_BAR Reg.csr (Nat.lor SHIM_CSR_RST SHIM_CSR_STALL)
         (Nat.lor SHIM_CSR_RST SHIM_CSR_STALL),
       HwEvent.delayMs 10,
       HwEvent.updBits HSW_DSP_BAR Reg.csr (Nat.lor SHIM_CSR_RST SHIM_CSR_STALL)
         SHIM_CSR_STALL] := by
  have hm1 : (Nat.lor SHIM_CSR_RST SHIM_CSR_STALL).testBit 1 = true := by decide
  have hm10 : (Nat.lor SHIM_CSR_RST SHIM_CSR_STALL).testBit 10 = true := by decide
  have hs1 : Nat.testBit SHIM_CSR_STALL 1 = false := by decide
  have hs10 : Nat.testBit SHIM_CSR_STALL 10 = true := by decide
  refine ⟨rfl, ?_, ?_, ?_, ?_, rfl⟩ <;>
    simp [hsw_reset, updateBits_testBit, hm1, hm10, hs1, hs10]

/-- The D0 power-state polling loop of `hsw_set_dsp_D0` (hsw.c lines
191-215): `tries = 10; while (tries--) { reg = readl(PMCS) & mask; if
(reg == 0) goto finish; msleep(20); }`.  `f` gives the raw `PMCS` value
of each successive read; the result is whether the field cleared,
together with the poll's event trace. -/
def d0_poll (f : Nat → Nat) : Nat → Nat → Bool × List HwEvent
  | _, 0 => (false, [])
  | i, Nat.succ t =>
      if f i &&& PCI_PMCS_PS_MASK = 0 then (true, [HwEvent.readPMCS i])
      else
        let r := d0_poll f (i + 1) t
        (r.1, HwEvent.readPMCS i :: HwEvent.delayMs 20 :: r.2)

/-- The register writes of `hsw_set_dsp_D0` before the polling loop
(hsw.c lines 194-205). -/
def hsw_set_dsp_D0_pre : List HwEvent :=
  [HwEvent.updBits HSW_PCI_BAR Reg.vdrtctl2
     (PCI_VDRTCL2_DCLCGE ||| PCI_VDRTCL2_DTCGE) 0,
   HwEvent.updBits HSW_PCI_BAR Reg.vdrtctl0 PCI_VDRTCL0_D3PGD PCI_VDRTCL0_D3PGD,
   HwEvent.updBits HSW_PCI_BAR Reg.pmcs PCI_PMCS_PS_MASK 0]

/-- The register writes of `hsw_set_dsp_D0` after a successful poll
(hsw.c lines 219-289, the `finish:` path), ending with the four raw
writes `IPCX ← 0`, `IPCD ← 0`, `0x80 ← 0x6`, `0xe0 ← 0x300a`. -/
def hsw_set_dsp_D0_post : List HwEvent :=
  [HwEvent.updBits HSW_DSP_BAR Reg.csr
     (SHIM_CSR_S1IOCS ||| SHIM_CSR_SBCS1 ||| SHIM_CSR_LPCS) 0,
   HwEvent.updBits HSW_DSP_BAR Reg.csr (SHIM_CSR_STALL ||| SHIM_CSR_DCS_MASK)
     (SHIM_CSR_STALL ||| SHIM_CSR_DCS4),
   HwEvent.updBits HSW_DSP_BAR Reg.clkctl
     (SHIM_CLKCTL_MASK ||| SHIM_CLKCTL_DCPLCG ||| SHIM_CLKCTL_SCOE0)
     (SHIM_CLKCTL_MASK ||| SHIM_CLKCTL_DCPLCG ||| SHIM_CLKCTL_SCOE0)]
  ++ hsw_reset_events ++
  [HwEvent.updBits HSW_PCI_BAR Reg.vdrtctl2
     (PCI_VDRTCL2_DCLCGE ||| PCI_VDRTCL2_DTCGE)
     (PCI_VDRTCL2_DCLCGE ||| PCI_VDRTCL2_DTCGE),
   HwEvent.delayUs 50 55,
   HwEvent.updBits HSW_PCI_BAR Reg.vdrtctl2 PCI_VDRTCL2_APLLSE_MASK 0,
   HwEvent.updBits HSW_PCI_BAR Reg.vdrtctl0
     (PCI_VDRTCL0_DSRAMPGE_MASK ||| PCI_VDRTCL0_ISRAMPGE_MASK) 0,
   HwEvent.updBits HSW_DSP_BAR Reg.csr2 SHIM_CSR2_SDFD_SSP1 SHIM_CSR2_SDFD_SSP1,
   HwEvent.updBits HSW_DSP_BAR Reg.hmdc
     (SHIM_HMDC_HDDA_E0_ALLCH ||| SHIM_HMDC_HDDA_E1_ALLCH)
     (SHIM_HMDC_HDDA_E0_ALLCH ||| SHIM_HMDC_HDDA_E1_ALLCH),
   HwEvent.updBits HSW_DSP_BAR Reg.imrx (SHIM_IMRX_BUSY ||| SHIM_IMRX_DONE) 0,
   HwEvent.updBits HSW_DSP_BAR Reg.imrd
     (SHIM_IMRD_DONE ||| SHIM_IMRD_BUSY ||| SHIM_IMRD_SSP0 ||| SHIM_IMRD_DMAC) 0,
   HwEvent.wr HSW_DSP_BAR Reg.ipcx 0,
   HwEvent.wr HSW_DSP_BAR Reg.ipcd 0,
   HwEvent.wr HSW_DSP_BAR Reg.reg80 0x6,
   HwEvent.wr HSW_DSP_BAR Reg.regE0 0x300a]

/-- `hsw_set_dsp_D0` (hsw.c lines 189-292) as its return value and
hardware event trace, parametrised by the sequence of raw `PMCS` poll
reads. -/
def hsw_set_dsp_D0 (f : Nat → Nat) : Int × List HwEvent :=
  let p := d0_poll f 0 10
  if p.1 then (0, hsw_set_dsp_D0_pre ++ p.2 ++ hsw_set_dsp_D0_post)
  else (-ENODEV, hsw_set_dsp_D0_pre ++ p.2)

/-- Number of `PMCS` status-field reads in an event trace. -/
def readPMCSCount (evs : List HwEvent) : Nat :=
  evs.countP fun e => match e with
    | HwEvent.readPMCS _ => true
    | _ => false

lemma d0_poll_count : ∀ (t i : Nat) (f : Nat → Nat),
    readPMCSCount (d0_poll f i t).2 ≤ t := by
  intro t
  induction t with
  | zero => intro i f; simp [d0_poll, readPMCSCount]
  | succ k ih =>
    intro i f
    by_cases h : f i &&& PCI_PMCS_PS_MASK = 0
    · simp [d0_poll, h, readPMCSCount]
    · have hrec := ih (i + 1) f
      simp only [readPMCSCount] at hrec ⊢
      simp [d0_poll, if_neg h, List.countP_cons]
      omega

/-- The event trace the polling loop of `hsw_set_dsp_D0` emits when the
power-state field never clears: one read and one 20ms sleep per try. -/
def d0_poll_fail_events : Nat → Nat → List HwEvent
  | _, 0 => []
  | i, Nat.succ t =>
      HwEvent.readPMCS i :: HwEvent.delayMs 20 :: d0_poll_fail_events (i + 1) t

lemma d0_poll_never : ∀ (t i : Nat) (f : Nat → Nat),
    (∀ j, i ≤ j → j < i + t → f j &&& PCI_PMCS_PS_MASK ≠ 0) →
    d0_poll f i t = (false, d0_poll_fail_events i t) := by
  intro t
  induction t with
  | zero => intro i f _; rfl
  | succ k ih =>
    intro i f h
    have hi : ¬ f i &&& PCI_PMCS_PS_MASK = 0 := h i le_rfl (by omega)
    have hrec := ih (i + 1) f (fun j hj1 hj2 => h j (by omega) (by omega))
    simp [d0_poll, hi, hrec, d0_poll_fail_events]

/-- C4: the Enter-D0 poll reads the `PMCS` status field at most 10
times, and when the masked field never reads as zero, `hsw_set_dsp_D0`
returns `-ENODEV` after exactly 10 attempts at 20ms spacing. -/
theorem hsw_set_dsp_D0_poll_times_out (f : Nat → Nat) :
    readPMCSCount (hsw_set_dsp_D0 f).2 ≤ 10 ∧
    ((∀ i, i < 10 → f i &&& PCI_PMCS_PS_MASK ≠ 0) →
      hsw_set_dsp_D0 f = (-ENODEV, hsw_set_dsp_D0_pre ++
        [HwEvent.readPMCS 0, HwEvent.delayMs 20, HwEvent.readPMCS 1,
         HwEvent.delayMs 20, HwEvent.readPMCS 2, HwEvent.delayMs 20,
         HwEvent.readPMCS 3, HwEvent.delayMs 20, HwEvent.readPMCS 4,
         HwEvent.delayMs 20, HwEvent.readPMCS 5, HwEvent.delayMs 20,
         HwEvent.readPMCS 6, HwEvent.delayMs 20, HwEvent.readPMCS 7,
         HwEvent.delayMs 20, HwEvent.readPMCS 8, HwEvent.delayMs 20,
         HwEvent.readPMCS 9, HwEvent.delayMs 20]) ∧
      readPMCSCount (hsw_set_dsp_D0 f).2 = 10) := by
  have hpre : readPMCSCount hsw_set_dsp_D0_pre = 0 := by decide
  have hpost : readPMCSCount hsw_set_dsp_D0_post = 0 := by decide
  have hbound := d0_poll_count 10 0 f
  constructor
  · have hcase : (hsw_set_dsp_D0 f).2 =
        hsw_set_dsp_D0_pre ++ (d0_poll f 0 10).2 ++ hsw_set_dsp_D0_post ∨
        (hsw_set_dsp_D0 f).2 = hsw_set_dsp_D0_pre ++ (d0_poll f 0 10).2 := by
      simp only [hsw_set_dsp_D0]
      split
      · exact Or.inl rfl
      · exact Or.inr rfl
    simp only [readPMCSCount] at hpre hpost hbound
    rcases hcase with hc | hc <;> rw [hc] <;>
      simp only [readPMCSCount, List.countP_append] <;> omega
  · intro h
    have hnever := d0_poll_never 10 0 f (fun j hj1 hj2 => h j (by omega))
    have hfail : d0_poll_fail_events 0 10 =
        [HwEvent.readPMCS 0, HwEvent.delayMs 20, HwEvent.readPMCS 1,
         HwEvent.delayMs 20, HwEvent.readPMCS 2, HwEvent.delayMs 20,
         HwEvent.readPMCS 3, HwEvent.delayMs 20, HwEvent.readPMCS 4,
         HwEvent.delayMs 20, HwEvent.readPMCS 5, HwEvent.delayMs 20,
         HwEvent.readPMCS 6, HwEvent.delayMs 20, HwEvent.readPMCS 7,
         HwEvent.delayMs 20, HwEvent.readPMCS 8, HwEvent.delayMs 20,
         HwEvent.readPMCS 9, HwEvent.delayMs 20] := by decide
    constructor
    · simp [hsw_set_dsp_D0, hnever, hfail]
    · rw [show (hsw_set_dsp_D0 f).2 =
          hsw_set_dsp_D0_pre ++ d0_poll_fail_events 0 10 by
        simp [hsw_set_dsp_D0, hnever]]
      decide

/-- C4 witness: with every poll read returning 1 (power-state field
stuck), bring-up fails with `-ENODEV` and exactly 10 spaced reads. -/
theorem hsw_set_dsp_D0_poll_times_out_witness :
    readPMCSCount (hsw_set_dsp_D0 (fun _ => 1)).2 ≤ 10 ∧
    (hsw_set_dsp_D0 (fun _ => 1)).1 = -ENODEV ∧
    readPMCSCount (hsw_set_dsp_D0 (fun _ => 1)).2 = 10 :=
  ⟨(hsw_set_dsp_D0_poll_times_out (fun _ => 1)).1,
   by
     have h := (hsw_set_dsp_D0_poll_times_out (fun _ => 1)).2
       (fun i _ => by decide)
     exact ⟨by rw [h.1], h.2⟩⟩

/-- C9 counterexample: on a run where the device reports D0 at the first
poll, the last two register writes of `hsw_set_dsp_D0` store `0x6` and
`0x300a` into the scratch registers `0x80` and `0xe0`; they are not
zeroing stores, contradicting the claim that the sequence ends by
zeroing the two scratch registers. -/
theorem hsw_set_dsp_D0_scratch_not_zeroed :
    List.drop ((hsw_set_dsp_D0 (fun _ => 0)).2.length - 2)
        (hsw_set_dsp_D0 (fun _ => 0)).2 =
      [HwEvent.wr HSW_DSP_BAR Reg.reg80 0x6,
       HwEvent.wr HSW_DSP_BAR Reg.regE0 0x300a] ∧
    ¬ (HwEvent.wr HSW_DSP_BAR Reg.reg80 0x6 = HwEvent.wr HSW_DSP_BAR Reg.reg80 0 ∧
       HwEvent.wr HSW_DSP_BAR Reg.regE0 0x300a = HwEvent.wr HSW_DSP_BAR Reg.regE0 0) := by
  decide

/-- C9 amended: on every successful bring-up, `hsw_set_dsp_D0` ends by
zeroing both mailbox doorbell registers (`IPCX`, `IPCD`) and, after
them, writing the fixed non-zero values `0x6` and `0x300a` to the two
undocumented-but-required scratch registers, as its final register
writes. -/
theorem hsw_set_dsp_D0_final_writes (f : Nat → Nat)
    (h : (hsw_set_dsp_D0 f).1 = 0) :
    List.drop ((hsw_set_dsp_D0 f).2.length - 4) (hsw_set_dsp_D0 f).2 =
      [HwEvent.wr HSW_DSP_BAR Reg.ipcx 0,
       HwEvent.wr HSW_DSP_BAR Reg.ipcd 0,
       HwEvent.wr HSW_DSP_BAR Reg.reg80 0x6,
       HwEvent.wr HSW_DSP_BAR Reg.regE0 0x300a] := by
  rcases hb : d0_poll f 0 10 with ⟨ok, evs⟩
  rcases ok
  · exfalso
    have hne : hsw_set_dsp_D0 f = (-ENODEV, hsw_set_dsp_D0_pre ++ evs) := by
      simp [hsw_set_dsp_D0, hb]
    rw [hne] at h
    simp [ENODEV] at h
  · have htr : (hsw_set_dsp_D0 f).2 =
        hsw_set_dsp_D0_pre ++ evs ++ hsw_set_dsp_D0_post := by
      simp [hsw_set_dsp_D0, hb]
    rw [htr]
    have hlen : ((hsw_set_dsp_D0_pre ++ evs) ++ hsw_set_dsp_D0_post).length =
        (hsw_set_dsp_D0_pre ++ evs).length + 14 + 4 := by
      simp [hsw_set_dsp_D0_post, hsw_reset_events, List.length_append]
      omega
    rw [hlen]
    have harith : (hsw_set_dsp_D0_pre ++ evs).length + 14 + 4 - 4 =
        (hsw_set_dsp_D0_pre ++ evs).length + 14 := by omega
    rw [harith, List.drop_append]
    decide

/-- C9 amended witness: concrete immediately-ready run. -/
theorem hsw_set_dsp_D0_final_writes_witness :
    List.drop ((hsw_set_dsp_D0 (fun _ => 0)).2.length - 4)
        (hsw_set_dsp_D0 (fun _ => 0)).2 =
      [HwEvent.wr HSW_DSP_BAR Reg.ipcx 0,
       HwEvent.wr HSW_DSP_BAR Reg.ipcd 0,
       HwEvent.wr HSW_DSP_BAR Reg.reg80 0x6,
       HwEvent.wr HSW_DSP_BAR Reg.regE0 0x300a] :=
  hsw_set_dsp_D0_final_writes (fun _ => 0) (by decide)

/- ### 4.4 Doorbell interrupt dispatcher (C5, C8)

`hsw_irq_handler` (hsw.c lines 324-352) is the immediate stage: read
`ISRX` once, mask each asserted source bit in `IMRX`, and report
`IRQ_NONE` when neither DONE nor BUSY was asserted, else
`IRQ_WAKE_THREAD`.  `hsw_irq_thread` (lines 354-391) is the deferred
stage. -/

/-- Modelled from the spec: `SHIM_ISRX_DONE` status bit (`shim.h` is
missing from the sources). -/
def SHIM_ISRX_DONE : Nat := 2 ^ 0

/-- Modelled from the spec: `SHIM_ISRX_BUSY` status bit. -/
def SHIM_ISRX_BUSY : Nat := 2 ^ 1

/-- Modelled from the spec: `SHIM_IPCX_DONE` doorbell flag. -/
def SHIM_IPCX_DONE : Nat := 2 ^ 30

/-- Modelled from the spec: `SHIM_IPCX_BUSY` doorbell flag. -/
def SHIM_IPCX_BUSY : Nat := 2 ^ 31

/-- Modelled from the spec: `SHIM_IPCD_BUSY` doorbell flag. -/
def SHIM_IPCD_BUSY : Nat := 2 ^ 31

/-- Modelled from the spec: `SHIM_IPCD_DONE` doorbell flag. -/
def SHIM_IPCD_DONE : Nat := 2 ^ 30

/-- Modelled from the spec: `SOF_IPC_PANIC_MAGIC`, the fault-magic
pattern of the IPC ABI (its header is missing from the sources). -/
def SOF_IPC_PANIC_MAGIC : Nat := 0x0dead000

/-- Modelled from the spec: `SOF_IPC_PANIC_MAGIC_MASK`, the bits that
carry the fault-magic pattern. -/
def SOF_IPC_PANIC_MAGIC_MASK : Nat := 0x0ffff000

/-- Linux `irqreturn_t` values used by the dispatcher. -/
inductive IrqRet where
  | irqNone | wakeThread | handled
deriving DecidableEq

/-- `hsw_irq_handler` (hsw.c lines 324-352): read `isr` once; for each
asserted bit among DONE, BUSY, mask that bit in `IMRX` and request the
thread; with neither asserted return `IRQ_NONE` and leave `IMRX`
untouched.  Result: `(irqreturn, new IMRX)`. -/
def hsw_irq_handler (isr imrx : Nat) : IrqRet × Nat :=
  let st1 : IrqRet × Nat :=
    if isr &&& SHIM_ISRX_DONE ≠ 0 then
      (IrqRet.wakeThread, updateBits imrx SHIM_IMRX_DONE SHIM_IMRX_DONE)
    else (IrqRet.irqNone, imrx)
  if isr &&& SHIM_ISRX_BUSY ≠ 0 then
    (IrqRet.wakeThread, updateBits st1.2 SHIM_IMRX_BUSY SHIM_IMRX_BUSY)
  else st1

/-- C8: an interrupt with neither DONE nor BUSY asserted is reported as
not-mine (`IRQ_NONE`) with the mask register untouched (no deferred
work); for each asserted bit the handler masks that bit in `IMRX`
(DONE at bit 0, BUSY at bit 1 of the modelled mask register) and
requests the deferred stage. -/
theorem hsw_irq_handler_spec (isr imrx : Nat) :
    (isr &&& SHIM_ISRX_DONE = 0 ∧ isr &&& SHIM_ISRX_BUSY = 0 →
      hsw_irq_handler isr imrx = (IrqRet.irqNone, imrx)) ∧
    (isr &&& SHIM_ISRX_DONE ≠ 0 →
      (hsw_irq_handler isr imrx).1 = IrqRet.wakeThread ∧
      (hsw_irq_handler isr imrx).2.testBit 0 = true) ∧
    (isr &&& SHIM_ISRX_BUSY ≠ 0 →
      (hsw_irq_handler isr imrx).1 = IrqRet.wakeThread ∧
      (hsw_irq_handler isr imrx).2.testBit 1 = true) := by
  have hd0 : Nat.testBit SHIM_IMRX_DONE 0 = true := by decide
  have hb1 : Nat.testBit SHIM_IMRX_BUSY 1 = true := by decide
  have hb0 : Nat.testBit SHIM_IMRX_BUSY 0 = false := by decide
  have hupd0 : ∀ x : Nat,
      (updateBits x SHIM_IMRX_DONE SHIM_IMRX_DONE).testBit 0 = true := by
    intro x
    rw [updateBits_testBit _ _ _ 0 (by omega), hd0]
    simp
  have hkeep0 : ∀ x : Nat,
      (updateBits x SHIM_IMRX_BUSY SHIM_IMRX_BUSY).testBit 0 = x.testBit 0 := by
    intro x
    rw [updateBits_testBit _ _ _ 0 (by omega), hb0]
    simp
  have hupd1 : ∀ x : Nat,
      (updateBits x SHIM_IMRX_BUSY SHIM_IMRX_BUSY).testBit 1 = true := by
    intro x
    rw [updateBits_testBit _ _ _ 1 (by omega), hb1]
    simp
  refine ⟨?_, ?_, ?_⟩
  · rintro ⟨h1, h2⟩
    simp [hsw_irq_handler, h1, h2]
  · intro h1
    by_cases h2 : isr &&& SHIM_ISRX_BUSY ≠ 0
    · have hred : hsw_irq_handler isr imrx =
          (IrqRet.wakeThread,
           updateBits (updateBits imrx SHIM_IMRX_DONE SHIM_IMRX_DONE)
             SHIM_IMRX_BUSY SHIM_IMRX_BUSY) := by
        simp [hsw_irq_handler, h1, h2]
      rw [hred]
      exact ⟨rfl, by rw [hkeep0, hupd0]⟩
    · have hred : hsw_irq_handler isr imrx =
          (IrqRet.wakeThread, updateBits imrx SHIM_IMRX_DONE SHIM_IMRX_DONE) := by
        simp [hsw_irq_handler, h1, h2]
      rw [hred]
      exact ⟨rfl, hupd0 imrx⟩
  · intro h2
    by_cases h1 : isr &&& SHIM_ISRX_DONE ≠ 0
    · have hred : hsw_irq_handler isr imrx =
          (IrqRet.wakeThread,
           updateBits (updateBits imrx SHIM_IMRX_DONE SHIM_IMRX_DONE)
             SHIM_IMRX_BUSY SHIM_IMRX_BUSY) := by
        simp [hsw_irq_handler, h1, h2]
      rw [hred]
      exact ⟨rfl, hupd1 _⟩
    · have hred : hsw_irq_handler isr imrx =
          (IrqRet.wakeThread, updateBits imrx SHIM_IMRX_BUSY SHIM_IMRX_BUSY) := by
        simp [hsw_irq_handler, h1, h2]
      rw [hred]
      exact ⟨rfl, hupd1 imrx⟩

/-- C8 witness: `isr = 0` is reported as not-mine with `IMRX` left at 5;
`isr` with only DONE masks bit 0 of `IMRX = 0`. -/
theorem hsw_irq_handler_spec_witness :
    hsw_irq_handler 0 5 = (IrqRet.irqNone, 5) ∧
    ((hsw_irq_handler 1 0).1 = IrqRet.wakeThread ∧
      (hsw_irq_handler 1 0).2.testBit 0 = true) :=
  ⟨(hsw_irq_handler_spec 0 5).1 (by decide),
   (hsw_irq_handler_spec 1 0).2.1 (by decide)⟩

/-- Externally visible actions of the deferred stage `hsw_irq_thread`:
reply-header read + reply dispatch + DONE acknowledge/unmask on the
DONE path; panic capture or ordinary message consumption on the BUSY
path. -/
inductive ThreadAction where
  | readHeader (offset : Nat)
  | ipcReply
  | clearDone
  | unmaskDone
  | panic (offset : Nat)
  | msgsRx
deriving DecidableEq

/-- `hsw_irq_thread` (hsw.c lines 354-391) as the list of actions it
performs, given the `IPCX` and `IPCD` register reads and the host box
offset.  Always returns `IRQ_HANDLED`. -/
def hsw_irq_thread (ipcx ipcd host_box_offset : Nat) :
    List ThreadAction × IrqRet :=
  let doneActs :=
    if ipcx &&& SHIM_IPCX_DONE ≠ 0 then
      [ThreadAction.readHeader host_box_offset, ThreadAction.ipcReply,
       ThreadAction.clearDone, ThreadAction.unmaskDone]
    else []
  let busyActs :=
    if ipcd &&& SHIM_IPCD_BUSY ≠ 0 then
      if ipcd &&& SOF_IPC_PANIC_MAGIC_MASK = SOF_IPC_PANIC_MAGIC then
        [ThreadAction.panic (HSW_PANIC_OFFSET ipcx + MBOX_OFFSET)]
      else [ThreadAction.msgsRx]
    else []
  (doneActs ++ busyActs, IrqRet.handled)

/-- C5: whenever the inbound command register has BUSY asserted and its
status word matches the fault-magic pattern under the magic mask —
whatever the non-magic bits hold — the deferred stage invokes the
fault-capture path (at the panic-encoded offset plus the mailbox base)
and never the ordinary incoming-message consumer. -/
theorem hsw_irq_thread_panic_routing (ipcx ipcd off : Nat)
    (hbusy : ipcd &&& SHIM_IPCD_BUSY ≠ 0)
    (hmagic : ipcd &&& SOF_IPC_PANIC_MAGIC_MASK = SOF_IPC_PANIC_MAGIC) :
    ThreadAction.panic (HSW_PANIC_OFFSET ipcx + MBOX_OFFSET) ∈
      (hsw_irq_thread ipcx ipcd off).1 ∧
    ThreadAction.msgsRx ∉ (hsw_irq_thread ipcx ipcd off).1 := by
  by_cases hdone : ipcx &&& SHIM_IPCX_DONE ≠ 0 <;>
    simp [hsw_irq_thread, hbusy, hmagic, hdone]

/-- C5 witness: `ipcd = 0x8dead000` (BUSY bit plus magic pattern plus
a non-magic low bit left clear) routes to fault capture, not to the
message consumer. -/
theorem hsw_irq_thread_panic_routing_witness :
    ThreadAction.panic (HSW_PANIC_OFFSET 0x1234 + MBOX_OFFSET) ∈
      (hsw_irq_thread 0x1234 0x8dead000 0).1 ∧
    ThreadAction.msgsRx ∉ (hsw_irq_thread 0x1234 0x8dead000 0).1 :=
  hsw_irq_thread_panic_routing 0x1234 0x8dead000 0 (by decide) (by decide)

/- ### 4.5 Firmware-ready window discovery (C6)

`hsw_get_windows` (hsw.c lines 396-487) walks the firmware window
table.  `UPBOX`/`DOWNBOX` elements set the live inbox/outbox offsets
(element offset plus `MBOX_OFFSET`) and sizes, `STREAM` the stream box,
`EXCEPTION` records the oops offset, `TRACE`/`DEBUG`/`REGS` only create
debugfs entries, and an unrecognized type aborts the walk.  After the
walk, a zero inbox or outbox size is a configuration error; otherwise
the live mailbox is initialized from the accumulated values. -/

/-- The window element types of the IPC ABI (`SOF_IPC_REGION_*`);
`unknown` stands for any value outside the recognized enumerators,
which the `switch` default arm rejects. -/
inductive SofIpcRegion where
  | downbox | upbox | trace | debug | stream | regs | exception
  | unknown (n : Nat)
deriving DecidableEq

/-- Whether a region type falls into the `switch` default arm. -/
def isUnknown : SofIpcRegion → Bool
  | SofIpcRegion.unknown _ => true
  | _ => false

/-- `struct sof_ipc_window_elem`: `{type, offset, size}`. -/
structure sof_ipc_window_elem where
  etype : SofIpcRegion
  offset : Nat
  size : Nat
deriving DecidableEq

/-- The local state accumulated by the `hsw_get_windows` loop, plus the
`sdev->dsp_oops_offset` side effect of `EXCEPTION` elements. -/
structure WinState where
  inbox_offset : Nat
  inbox_size : Nat
  outbox_offset : Nat
  outbox_size : Nat
  stream_offset : Nat
  stream_size : Nat
  dsp_oops_offset : Option Nat
deriving DecidableEq

/-- One iteration of the `hsw_get_windows` loop body; `none` is the
default arm's early `return` on an unrecognized type. -/
def win_step (s : WinState) (e : sof_ipc_window_elem) : Option WinState :=
  match e.etype with
  | SofIpcRegion.upbox =>
      some { s with inbox_offset := e.offset + MBOX_OFFSET, inbox_size := e.size }
  | SofIpcRegion.downbox =>
      some { s with outbox_offset := e.offset + MBOX_OFFSET,
                    outbox_size := e.size }
  | SofIpcRegion.trace => some s
  | SofIpcRegion.debug => some s
  | SofIpcRegion.stream =>
      some { s with stream_offset := e.offset + MBOX_OFFSET,
                    stream_size := e.size }
  | SofIpcRegion.regs => some s
  | SofIpcRegion.exception =>
      some { s with dsp_oops_offset := some (e.offset + MBOX_OFFSET) }
  | SofIpcRegion.unknown _ => none

/-- The `hsw_get_windows` element loop. -/
def win_loop : WinState → List sof_ipc_window_elem → Option WinState
  | s, [] => some s
  | s, e :: es =>
      match win_step s e with
      | none => none
      | some s2 => win_loop s2 es

/-- The two failure modes of window discovery: an illegal window type
(default arm) and an illegal (zero-sized) mailbox window. -/
inductive WinErr where
  | illegalWindow | illegalMailbox
deriving DecidableEq

/-- Outcome of `hsw_get_windows`: the live mailbox configuration passed
to `snd_sof_dsp_mailbox_init` as `(inbox offset, inbox size, outbox
offset, outbox size)` — `none` when discovery aborts — the stream box,
and the error, if any. -/
structure WindowsResult where
  mailbox : Option (Nat × Nat × Nat × Nat)
  stream_box : Option (Nat × Nat)
  err : Option WinErr
deriving DecidableEq

/-- `hsw_get_windows` (hsw.c lines 396-487) over a given window table. -/
def hsw_get_windows (elems : List sof_ipc_window_elem) : WindowsResult :=
  match win_loop ⟨0, 0, 0, 0, 0, 0, none⟩ elems with
  | none =>
      { mailbox := none, stream_box := none, err := some WinErr.illegalWindow }
  | some s =>
      if s.outbox_size = 0 ∨ s.inbox_size = 0 then
        { mailbox := none, stream_box := none,
          err := some WinErr.illegalMailbox }
      else
        { mailbox := some (s.inbox_offset, s.inbox_size, s.outbox_offset,
            s.outbox_size),
          stream_box := some (s.stream_offset, s.stream_size),
          err := none }

/-- The `(offset, size)` pair of the last element of a given type in the
table — the value the loop's repeated assignment leaves behind. -/
def lastDeclared (t : SofIpcRegion) :
    Option (Nat × Nat) → List sof_ipc_window_elem → Option (Nat × Nat)
  | acc, [] => acc
  | acc, e :: es =>
      lastDeclared t (if e.etype = t then some (e.offset, e.size) else acc) es

/-- The live box values resulting from a declaration: the declared
offset plus the mailbox base, or the fallback when nothing declared. -/
def boxFrom (d : Option (Nat × Nat)) (fb : Nat × Nat) : Nat × Nat :=
  match d with
  | some (o, sz) => (o + MBOX_OFFSET, sz)
  | none => fb

lemma lastDeclared_cons (t : SofIpcRegion) (e : sof_ipc_window_elem)
    (es : List sof_ipc_window_elem) (acc : Option (Nat × Nat)) :
    lastDeclared t acc (e :: es) =
    lastDeclared t (if e.etype = t then some (e.offset, e.size) else acc) es :=
  rfl

lemma lastDeclared_acc (t : SofIpcRegion) :
    ∀ (es : List sof_ipc_window_elem) (acc : Option (Nat × Nat)),
    lastDeclared t acc es = (lastDeclared t none es).elim acc some := by
  intro es
  induction es with
  | nil => intro acc; rfl
  | cons e es ih =>
    intro acc
    rw [lastDeclared_cons, lastDeclared_cons]
    by_cases hp : e.etype = t
    · rw [if_pos hp, if_pos hp, ih (some (e.offset, e.size))]
      rcases lastDeclared t none es with _ | y <;> rfl
    · rw [if_neg hp, if_neg hp]
      exact ih acc

lemma boxFrom_hit (t : SofIpcRegion) (e : sof_ipc_window_elem)
    (es : List sof_ipc_window_elem) (fb : Nat × Nat) (he : e.etype = t) :
    boxFrom (lastDeclared t none (e :: es)) fb =
    boxFrom (lastDeclared t none es) (e.offset + MBOX_OFFSET, e.size) := by
  rw [lastDeclared_cons, if_pos he, lastDeclared_acc]
  rcases lastDeclared t none es with _ | y <;> rfl

lemma boxFrom_miss (t : SofIpcRegion) (e : sof_ipc_window_elem)
    (es : List sof_ipc_window_elem) (fb : Nat × Nat) (he : e.etype ≠ t) :
    boxFrom (lastDeclared t none (e :: es)) fb =
    boxFrom (lastDeclared t none es) fb := by
  rw [lastDeclared_cons, if_neg he]

lemma win_loop_boxes (es : List sof_ipc_window_elem) :
    ∀ s0 : WinState, (∀ e ∈ es, isUnknown e.etype = false) →
    ∃ s, win_loop s0 es = some s ∧
      (s.inbox_offset, s.inbox_size) =
        boxFrom (lastDeclared SofIpcRegion.upbox none es)
          (s0.inbox_offset, s0.inbox_size) ∧
      (s.outbox_offset, s.outbox_size) =
        boxFrom (lastDeclared SofIpcRegion.downbox none es)
          (s0.outbox_offset, s0.outbox_size) := by
  induction es with
  | nil =>
    intro s0 _
    exact ⟨s0, rfl, rfl, rfl⟩
  | cons e es ih =>
    intro s0 h
    have he := h e (List.mem_cons_self e es)
    have hes : ∀ x ∈ es, isUnknown x.etype = false :=
      fun x hx => h x (List.mem_cons_of_mem _ hx)
    cases het : e.etype with
    | upbox =>
      obtain ⟨s, hs, hib, hob⟩ := ih
        { s0 with inbox_offset := e.offset + MBOX_OFFSET,
                  inbox_size := e.size } hes
      refine ⟨s, ?_, ?_, ?_⟩
      · simp [win_loop, win_step, het, hs]
      · rw [boxFrom_hit _ _ _ _ het]
        simpa using hib
      · rw [boxFrom_miss _ _ _ _ (by simp [het])]
        simpa using hob
    | downbox =>
      obtain ⟨s, hs, hib, hob⟩ := ih
        { s0 with outbox_offset := e.offset + MBOX_OFFSET,
                  outbox_size := e.size } hes
      refine ⟨s, ?_, ?_, ?_⟩
      · simp [win_loop, win_step, het, hs]
      · rw [boxFrom_miss _ _ _ _ (by simp [het])]
        simpa using hib
      · rw [boxFrom_hit _ _ _ _ het]
        simpa using hob
    | trace =>
      obtain ⟨s, hs, hib, hob⟩ := ih s0 hes
      exact ⟨s, by simp [win_loop, win_step, het, hs],
        by rw [boxFrom_miss _ _ _ _ (by simp [het])]; exact hib,
        by rw [boxFrom_miss _ _ _ _ (by simp [het])]; exact hob⟩
    | debug =>
      obtain ⟨s, hs, hib, hob⟩ := ih s0 hes
      exact ⟨s, by simp [win_loop, win_step, het, hs],
        by rw [boxFrom_miss _ _ _ _ (by simp [het])]; exact hib,
        by rw [boxFrom_miss _ _ _ _ (by simp [het])]; exact hob⟩
    | regs =>
      obtain ⟨s, hs, hib, hob⟩ := ih s0 hes
      exact ⟨s, by simp [win_loop, win_step, het, hs],
        by rw [boxFrom_miss _ _ _ _ (by simp [het])]; exact hib,
        by rw [boxFrom_miss _ _ _ _ (by simp [het])]; exact hob⟩
    | stream =>
      obtain ⟨s, hs, hib, hob⟩ := ih
        { s0 with stream_offset := e.offset + MBOX_OFFSET,
                  stream_size := e.size } hes
      refine ⟨s, ?_, ?_, ?_⟩
      · simp [win_loop, win_step, het, hs]
      · rw [boxFrom_miss _ _ _ _ (by simp [het])]
        simpa using hib
      · rw [boxFrom_miss _ _ _ _ (by simp [het])]
        simpa using hob
    | exception =>
      obtain ⟨s, hs, hib, hob⟩ := ih
        { s0 with dsp_oops_offset := some (e.offset + MBOX_OFFSET) } hes
      refine ⟨s, ?_, ?_, ?_⟩
      · simp [win_loop, win_step, het, hs]
      · rw [boxFrom_miss _ _ _ _ (by simp [het])]
        simpa using hib
      · rw [boxFrom_miss _ _ _ _ (by simp [het])]
        simpa using hob
    | unknown n =>
      rw [het] at he
      simp [isUnknown] at he

/-- C6: over a recognized-types-only window table that declares an
inbound and an outbound mailbox, a zero inbound size makes discovery
abort with the illegal-mailbox configuration error and the live mailbox
stay uninitialized; with both sizes non-zero, the live box offsets are
the firmware-declared element offsets plus the fixed mailbox base. -/
theorem hsw_get_windows_spec (elems : List sof_ipc_window_elem)
    (o1 s1 o2 s2 : Nat)
    (hclean : ∀ e ∈ elems, isUnknown e.etype = false)
    (hin : lastDeclared SofIpcRegion.upbox none elems = some (o1, s1))
    (hout : lastDeclared SofIpcRegion.downbox none elems = some (o2, s2)) :
    (s1 = 0 ∨ s2 = 0 →
      (hsw_get_windows elems).err = some WinErr.illegalMailbox ∧
      (hsw_get_windows elems).mailbox = none) ∧
    (s1 ≠ 0 → s2 ≠ 0 →
      (hsw_get_windows elems).mailbox =
        some (o1 + MBOX_OFFSET, s1, o2 + MBOX_OFFSET, s2) ∧
      (hsw_get_windows elems).err = none) := by
  obtain ⟨s, hloop, hib, hob⟩ :=
    win_loop_boxes elems ⟨0, 0, 0, 0, 0, 0, none⟩ hclean
  rw [hin] at hib
  rw [hout] at hob
  simp only [boxFrom, Prod.mk.injEq] at hib hob
  obtain ⟨hio, his⟩ := hib
  obtain ⟨hoo, hos⟩ := hob
  constructor
  · intro hz
    have hcond : s.outbox_size = 0 ∨ s.inbox_size = 0 := by omega
    constructor <;> simp [hsw_get_windows, hloop, hcond]
  · intro h1 h2
    have hcond : ¬ (s2 = 0 ∨ s1 = 0) := by omega
    constructor <;> simp [hsw_get_windows, hloop, hio, his, hoo, hos, hcond]

/-- C6 witness: a table declaring inbox `(0x1000, 0x100)` and outbox
`(0x2000, 0x200)` yields a live mailbox at those offsets plus the
mailbox base, with no error. -/
theorem hsw_get_windows_spec_witness :
    (hsw_get_windows
        [⟨SofIpcRegion.upbox, 0x1000, 0x100⟩,
         ⟨SofIpcRegion.downbox, 0x2000, 0x200⟩]).mailbox =
      some (0x1000 + MBOX_OFFSET, 0x100, 0x2000 + MBOX_OFFSET, 0x200) ∧
    (hsw_get_windows
        [⟨SofIpcRegion.upbox, 0x1000, 0x100⟩,
         ⟨SofIpcRegion.downbox, 0x2000, 0x200⟩]).err = none :=
  (hsw_get_windows_spec
      [⟨SofIpcRegion.upbox, 0x1000, 0x100⟩,
       ⟨SofIpcRegion.downbox, 0x2000, 0x200⟩]
      0x1000 0x100 0x2000 0x200
      (by decide) (by decide) (by decide)).2
    (by decide) (by decide)
